import Mathlib

/-!
Shallow embedding of `src/schema-association-service.ts` from the
azure-pipelines-vscode repository: the schema resolution and
session-scoped caching engine.

External collaborators (editor APIs, git extension, identity provider,
the organizations/schema network clients, durable storage and the UI)
are modelled at their interface boundary: their observable answers are
inputs in `Env`, and their observable effects (messages shown, files
written, network calls issued, persisted workspace state, the
notification event) are threaded through an explicit state `St`.
Machine strings are `String` (lists of characters); fallible code
returns `Except`.
-/

namespace SchemaAssoc

/-! ## String and path helpers (JS / Node semantics used by the source) -/

/-- Embedding of JS `String.prototype.toLowerCase` (ASCII model). -/
def jsToLower (s : String) : String := ⟨s.data.map Char.toLower⟩

/-- Boolean list check: the first list is an initial segment of the second. -/
def listStarts : List Char → List Char → Bool
  | [], _ => true
  | _ :: _, [] => false
  | p :: ps, c :: cs => p == c && listStarts ps cs

/-- Embedding of JS `String.prototype.startsWith`. -/
def strStarts (p s : String) : Bool := listStarts p.data s.data

/-- Embedding of JS `String.prototype.trim`. -/
def jsTrim (s : String) : String :=
  ⟨((s.data.dropWhile Char.isWhitespace).reverse.dropWhile Char.isWhitespace).reverse⟩

/-- Embedding of Node `path.isAbsolute` (posix model: leading slash). -/
def pathIsAbsolute (s : String) : Bool :=
  match s.data with
  | [] => false
  | c :: _ => c == '/'

/-- Embedding of Node `path.join` (posix model; `.`/`..` normalization and
trailing-slash collapsing are not exercised by the properties below). -/
def pathJoin (a b : String) : String :=
  if a = "" then b else if b = "" then a else a ++ "/" ++ b

/-! ## URIs (vscode.Uri model: scheme, authority, path) -/

structure Uri where
  scheme : String
  authority : String
  path : String
deriving Repr, DecidableEq

/-- Split a character list at the first occurrence of `c`: the part before,
and the remainder starting with `c` (or `[]` when `c` does not occur). -/
def splitAtChar (c : Char) : List Char → List Char × List Char
  | [] => ([], [])
  | x :: xs =>
    if x == c then ([], x :: xs)
    else
      let p := splitAtChar c xs
      (x :: p.1, p.2)

/-- Embedding of `vscode.Uri.parse`: `scheme://authority/path...`. -/
def Uri.parse (s : String) : Uri :=
  let p := splitAtChar ':' s.data
  match p.2 with
  | ':' :: '/' :: '/' :: rest =>
    let q := splitAtChar '/' rest
    { scheme := ⟨p.1⟩, authority := ⟨q.1⟩, path := ⟨q.2⟩ }
  | ':' :: rest => { scheme := ⟨p.1⟩, authority := "", path := ⟨rest⟩ }
  | _ => { scheme := "", authority := "", path := s }

/-- Embedding of `vscode.Uri.file` (posix model). -/
def Uri.file (p : String) : Uri :=
  { scheme := "file", authority := "", path := p }

/-! ## Data model -/

/-- An authenticated session from the identity provider (`AzureSession`).
The provider-owned `listOrganizations()` answer for this session's
credentials is carried as data (`organizations`, the `accountName`s);
issuing that query is still counted as a network call at each call site. -/
structure AzureSession where
  tenantId : String
  organizations : List String
deriving Repr, DecidableEq

structure WorkspaceFolder where
  name : String
  fsPath : String
deriving Repr, DecidableEq

structure ExtensionContext where
  extensionPath : String
  globalStorageUri : Uri
deriving Repr, DecidableEq

/-- Observable answers of the external collaborators during one resolution:
login state, the provider's session list, the git remote URL (with `none`
covering both "no repository/remote" and a git-extension error), the
`azure-pipelines.customSchemaFile` configuration, whether token retrieval,
the schema network call and the file write succeed, and the serialized
schema document the remote endpoint returns. -/
structure Env where
  loggedIn : Bool
  sessions : List AzureSession
  remoteUrl : Option String
  customSchemaFile : String
  tokenOk : Bool
  schemaFetchOk : Bool
  writeOk : Bool
  schemaContent : String
deriving Repr, DecidableEq

/-- One entry of the persisted `azurePipelinesDetails` workspace state. -/
structure ChoiceEntry where
  folder : String
  organization : String
  tenant : String
deriving Repr, DecidableEq

/-- Observable state threaded through the engine: the module-level
`seenOrganizations` session cache, the persisted `azurePipelinesDetails`
mapping, written files, surfaced messages, call counters for the three
kinds of network access, and the `selectOrganizationEvent` notifier. -/
structure St where
  seenOrganizations : List String
  workspaceState : List ChoiceEntry
  files : List (String × String)
  infoMessages : List String
  errorMessages : List String
  orgListCalls : Nat
  tokenCalls : Nat
  schemaFetchCalls : Nat
  notifierFired : Bool
deriving Repr, DecidableEq

/-- Lookup in the persisted `azurePipelinesDetails` object. -/
def lookupWS (d : List ChoiceEntry) (n : String) : Option (String × String) :=
  match d.find? (fun e => e.folder == n) with
  | some e => some (e.organization, e.tenant)
  | none => none

/-- Embedding of the JS object spread `\x7b...details, [n]: (org, tenant)\x7d`:
every other key keeps its value, key `n` maps to the new pair. -/
def setWS (d : List ChoiceEntry) (n org tenant : String) : List ChoiceEntry :=
  { folder := n, organization := org, tenant := tenant } :: d.filter (fun e => !(e.folder == n))

def lookupFile (fs : List (String × String)) (p : String) : Option String :=
  (fs.find? (fun e => e.1 == p)).map (fun e => e.2)

/-- Overwriting file write at path `p`. -/
def setFile (fs : List (String × String)) (p c : String) : List (String × String) :=
  (p, c) :: fs.filter (fun e => !(e.1 == p))

/-- Set-insertion into the `seenOrganizations` session cache. -/
def insertOrg (seen : List String) (org : String) : List String :=
  if seen.contains org then seen else seen ++ [org]

/-! ## Messages (the user-visible prompts and errors of the source) -/

def signInMessage : String := "Sign in to Azure for enhanced IntelliSense"

def selectOrganizationMessage (folderName : String) : String :=
  "Select an Azure DevOps organization for " ++ folderName

def unableToAccessOrganizationMessage (org : String) : String :=
  "Unable to access the organization " ++ org

/-- The runtime error raised by evaluating `workspaceFolder.name` in the
hardcoded-schema log statement when `workspaceFolder` is `undefined`. -/
def typeErrorUndefinedName : String :=
  "TypeError: cannot read name of undefined workspace folder"

/-- The runtime error raised by evaluating `session.tenantId` in the
cached-information log statement when no session matched the tenant. -/
def typeErrorUndefinedTenantId : String :=
  "TypeError: cannot read tenantId of undefined session"

/-! ## Repository helpers outside src (modelled from the spec) -/

/-- Drop everything up to and including the first occurrence of `marker`
as a contiguous segment; `none` when `marker` does not occur. -/
def dropMarker (marker : List Char) : List Char → Option (List Char)
  | [] => if marker.isEmpty then some [] else none
  | c :: cs =>
    if listStarts marker (c :: cs) then some ((c :: cs).drop marker.length)
    else dropMarker marker cs

/-- Modelled from the spec: `AzureDevOpsHelper.isAzureReposUrl` (repository
code not under src/), the test that a remote URL "matches the recognized
organization-hosting URL shape". -/
def isAzureReposUrl (url : String) : Bool :=
  (dropMarker "dev.azure.com".data url.data).isSome
    || (dropMarker "visualstudio.com".data url.data).isSome

/-- Modelled from the spec: `AzureDevOpsHelper.getRepositoryDetailsFromRemoteUrl`
(repository code not under src/), which extracts the organizational identity
from a recognized remote URL deterministically. -/
def getOrganizationFromRemoteUrl (url : String) : String :=
  match dropMarker "dev.azure.com/".data url.data with
  | some rest => ⟨rest.takeWhile (fun c => !(c == '/'))⟩
  | none =>
    match dropMarker "https://".data url.data with
    | some rest => ⟨rest.takeWhile (fun c => !(c == '.'))⟩
    | none => ""

/-! ## The schema resolution engine (src/schema-association-service.ts) -/

/-- The deterministic fetched-schema location
`Utils.joinPath(context.globalStorageUri, organizationName + "-schema.json")`. -/
def schemaUriFor (ctx : ExtensionContext) (org : String) : Uri :=
  { scheme := ctx.globalStorageUri.scheme
    authority := ctx.globalStorageUri.authority
    path := pathJoin ctx.globalStorageUri.path (org ++ "-schema.json") }

/-- Embedding of lines 243-270: the global-storage directory creation, the
`seenOrganizations` cache check, and the token/fetch/write sequence that
ends with `seenOrganizations.add`. Each fallible step raises on failure. -/
def fetchAndCacheSchema (env : Env) (ctx : ExtensionContext) (organizationName : String)
    (_session : AzureSession) (st : St) : Except String Uri × St :=
  let schemaUri := schemaUriFor ctx organizationName
  if st.seenOrganizations.contains organizationName then
    (Except.ok schemaUri, st)
  else
    let st1 := { st with tokenCalls := st.tokenCalls + 1 }
    if env.tokenOk = false then
      (Except.error "getToken failed", st1)
    else
      let st2 := { st1 with schemaFetchCalls := st1.schemaFetchCalls + 1 }
      if env.schemaFetchOk = false then
        (Except.error "getYamlSchema failed", st2)
      else if env.writeOk = false then
        (Except.error "writeFile failed", st2)
      else
        (Except.ok schemaUri,
          { st2 with
            files := setFile st2.files schemaUri.path env.schemaContent
            seenOrganizations := insertOrg st2.seenOrganizations organizationName })

/-- Embedding of lines 236-270: the `session === undefined` error branch
(shows the inaccessible-organization message, yields no URI), then the
fetch-and-cache tail for a matched session. -/
def finishDetection (env : Env) (ctx : ExtensionContext) (_wf : WorkspaceFolder)
    (organizationName : String) (session : Option AzureSession) (st : St) :
    Except String (Option Uri) × St :=
  match session with
  | none =>
    (Except.ok none,
      { st with errorMessages :=
          st.errorMessages ++ [unableToAccessOrganizationMessage organizationName] })
  | some s =>
    match fetchAndCacheSchema env ctx organizationName s st with
    | (Except.ok uri, st') => (Except.ok (some uri), st')
    | (Except.error e, st') => (Except.error e, st')

/-- Embedding of the session-matching loop of lines 153-160: for each
session in provider order, one `listOrganizations()` network call, then a
case-insensitive membership test; the first match wins. -/
def findSessionWithOrg (organizationName : String) :
    List AzureSession → St → Option AzureSession × St
  | [], st => (none, st)
  | s :: rest, st =>
    let st1 := { st with orgListCalls := st.orgListCalls + 1 }
    if s.organizations.any (fun o => jsToLower o == jsToLower organizationName) then
      (some s, st1)
    else
      findSessionWithOrg organizationName rest st1

/-- Embedding of lines 148-160: the Azure-repo silent path. -/
def detectFromAzureRepo (env : Env) (ctx : ExtensionContext) (wf : WorkspaceFolder)
    (u : String) (st : St) : Except String (Option Uri) × St :=
  let organizationName := getOrganizationFromRemoteUrl u
  let found := findSessionWithOrg organizationName env.sessions st
  finishDetection env ctx wf organizationName found.1 found.2

/-- Embedding of lines 161-234: the persisted-choice branch. When the
persisted tenant matches no session, the log statement at line 174
dereferences `session.tenantId` on `undefined` and raises; when there is
no persisted entry, the selection prompt is shown fire-and-forget and the
call yields no URI. -/
def detectFromPersistedChoice (env : Env) (ctx : ExtensionContext) (wf : WorkspaceFolder)
    (st : St) : Except String (Option Uri) × St :=
  match lookupWS st.workspaceState wf.name with
  | some (org, tenant) =>
    match env.sessions.find? (fun s => s.tenantId == tenant) with
    | none => (Except.error typeErrorUndefinedTenantId, st)
    | some s => finishDetection env ctx wf org (some s) st
  | none =>
    (Except.ok none,
      { st with infoMessages := st.infoMessages ++ [selectOrganizationMessage wf.name] })

/-- Embedding of `autoDetectSchema` (lines 92-271). -/
def autoDetectSchema (env : Env) (ctx : ExtensionContext) (wf : WorkspaceFolder)
    (st : St) : Except String (Option Uri) × St :=
  if env.loggedIn = false then
    (Except.ok none, { st with infoMessages := st.infoMessages ++ [signInMessage] })
  else
    match env.remoteUrl with
    | some u =>
      if isAzureReposUrl u then detectFromAzureRepo env ctx wf u st
      else detectFromPersistedChoice env ctx wf st
    | none => detectFromPersistedChoice env ctx wf st

/-- Embedding of lines 53-56: the configured `customSchemaFile`, replaced by
the installation-bundled default when empty after trimming. -/
def staticAlternate (env : Env) (ctx : ExtensionContext) : String :=
  if (jsTrim env.customSchemaFile).length == 0 then
    pathJoin ctx.extensionPath "service-schema.json"
  else env.customSchemaFile

/-- Embedding of lines 53-67: the static fallback schema URI computation. -/
def staticSchemaUri (env : Env) (ctx : ExtensionContext) (wf : Option WorkspaceFolder) : Uri :=
  if strStarts "http://" (jsToLower (staticAlternate env ctx))
      || strStarts "https://" (jsToLower (staticAlternate env ctx)) then
    Uri.parse (staticAlternate env ctx)
  else if pathIsAbsolute (staticAlternate env ctx) then
    Uri.file (staticAlternate env ctx)
  else
    match wf with
    | some w => Uri.file (pathJoin w.fsPath (staticAlternate env ctx))
    | none => Uri.file (pathJoin ctx.extensionPath "service-schema.json")

/-- Embedding of `locateSchemaFile` (lines 29-77). Auto-detection runs only
for a concrete workspace folder, any error it raises is caught and logged,
and the static fallback path is then computed; the log statement at
lines 69-71 evaluates `workspaceFolder.name`, which raises a `TypeError`
when the workspace folder is `undefined`. -/
def locateSchemaFile (env : Env) (ctx : ExtensionContext)
    (wf : Option WorkspaceFolder) (st : St) : Except String String × St :=
  match wf with
  | some w =>
    match autoDetectSchema env ctx w st with
    | (Except.ok (some uri), st') => (Except.ok uri.path, st')
    | (_, st') => (Except.ok (staticSchemaUri env ctx (some w)).path, st')
  | none => (Except.error typeErrorUndefinedName, st)

/-! ## The interactive disambiguator continuation (lines 184-231) -/

/-- Outcome of the fire-and-forget organization prompt: the user declines
the information message, cancels the quick pick, or selects the item at
`index` of the lazily built candidate list. -/
inductive PromptAction where
  | decline
  | cancelPick
  | select (index : Nat)
deriving Repr, DecidableEq

/-- The lazily built quick-pick candidate list of lines 191-206: one
`listOrganizations()` call per session, every organization of every
session paired with its session, in order. -/
def organizationsQuickPickItems (env : Env) : List (String × AzureSession) :=
  env.sessions.flatMap (fun s => s.organizations.map (fun o => (o, s)))

/-- Embedding of the un-awaited continuation of lines 184-231. `details`
is the `azurePipelinesDetails` object captured when the resolution that
scheduled this prompt read it. Declining shows nothing further; an
affirmative answer builds the candidate list (one organization-list call
per session); cancelling the pick changes nothing else; a selection
persists the merged choice and fires the notifier. -/
def organizationPromptContinuation (env : Env) (wf : WorkspaceFolder)
    (details : List ChoiceEntry) (action : PromptAction) (st : St) : St :=
  match action with
  | .decline => st
  | .cancelPick => { st with orgListCalls := st.orgListCalls + env.sessions.length }
  | .select i =>
    let st1 := { st with orgListCalls := st.orgListCalls + env.sessions.length }
    match (organizationsQuickPickItems env).get? i with
    | none => st1
    | some (org, s) =>
      { st1 with
        workspaceState := setWS details wf.name org s.tenantId
        notifierFired := true }

/-- The spec-side session matcher, written from the spec's words: "return
the first session whose list contains identity (case-insensitive exact
match on name)", `undefined` when no session's list contains it. -/
def specSessionMatcher (identity : String) (sessions : List AzureSession) :
    Option AzureSession :=
  sessions.find? (fun s => s.organizations.any (fun o => jsToLower o == jsToLower identity))

/-! ## Concrete instances used by counterexamples and witnesses -/

def ctxT : ExtensionContext :=
  { extensionPath := "/ext", globalStorageUri := Uri.file "/gs" }

def wfT : WorkspaceFolder := { name := "repo-a", fsPath := "/ws" }

def sessT : AzureSession := { tenantId := "t1", organizations := ["Contoso"] }

def st0 : St :=
  { seenOrganizations := [], workspaceState := [], files := [], infoMessages := [],
    errorMessages := [], orgListCalls := 0, tokenCalls := 0, schemaFetchCalls := 0,
    notifierFired := false }

/-- A workspace whose git remote is a recognized Azure repo of organization
`contoso`, with one session that can access it and a healthy network. -/
def envRemote : Env :=
  { loggedIn := true, sessions := [sessT],
    remoteUrl := some "https://dev.azure.com/contoso/proj/_git/repo",
    customSchemaFile := "", tokenOk := true, schemaFetchOk := true, writeOk := true,
    schemaContent := "schema-doc" }

/-- The state after a first resolution of `wfT` under `envRemote` fetched
and cached the schema for `contoso`. -/
def st1remote : St := (autoDetectSchema envRemote ctxT wfT st0).2

/-- A workspace with no git remote; identity comes from the persisted choice. -/
def envPersisted : Env :=
  { loggedIn := true, sessions := [sessT], remoteUrl := none,
    customSchemaFile := "", tokenOk := true, schemaFetchOk := true, writeOk := true,
    schemaContent := "schema-doc" }

/-- State with a persisted (contoso, t1) choice for `wfT` and `contoso`
already in the session cache. -/
def stPersistedSeen : St :=
  { st0 with
    seenOrganizations := ["contoso"]
    workspaceState := [{ folder := "repo-a", organization := "contoso", tenant := "t1" }] }

/-- State with a persisted choice for `wfT` naming a tenant that matches no
session (revoked access). -/
def stRevoked : St :=
  { st0 with
    workspaceState := [{ folder := "repo-a", organization := "contoso", tenant := "gone" }] }

/-- A second workspace folder, distinct from `wfT`. -/
def wfOther : WorkspaceFolder := { name := "repo-b", fsPath := "/o" }

/-- A relative custom-schema configuration. -/
def envRelative : Env := { envPersisted with customSchemaFile := "custom/rel.json" }

/-- An https custom-schema configuration, with nobody logged in. -/
def envHttp : Env :=
  { envPersisted with
    loggedIn := false
    customSchemaFile := "https://contoso.example/p/q.json" }

/-! ## Helper lemmas -/

lemma listStarts_self_append (p t : List Char) : listStarts p (p ++ t) = true := by
  induction p with
  | nil => rfl
  | cons c cs ih => simp [listStarts, ih]

lemma splitAtChar_append_of_not_mem (c : Char) (l₁ l₂ : List Char) (h : c ∉ l₁) :
    splitAtChar c (l₁ ++ c :: l₂) = (l₁, c :: l₂) := by
  induction l₁ with
  | nil => simp [splitAtChar]
  | cons x xs ih =>
    have hx : (x == c) = false := by
      simp only [beq_eq_false_iff_ne, ne_eq]
      intro hxc
      exact h (hxc ▸ List.mem_cons_self x xs)
    simp only [List.cons_append, splitAtChar, hx, Bool.false_eq_true, if_false]
    rw [show (xs.append (c :: l₂)) = xs ++ c :: l₂ from rfl]
    rw [ih (fun hm => h (List.mem_cons_of_mem x hm))]

lemma jsTrim_length_ne_zero (s : String) (c : Char) (r : List Char)
    (hs : s.data = c :: r) (hc : c.isWhitespace = false) :
    ((jsTrim s).length == 0) = false := by
  have hdrop : (c :: r).dropWhile Char.isWhitespace = c :: r := by
    simp [List.dropWhile_cons, hc]
  have hne : ((c :: r).reverse.dropWhile Char.isWhitespace) ≠ [] := by
    intro hnil
    have hmem : c ∈ (c :: r).reverse := by simp
    have := (List.dropWhile_eq_nil_iff).mp hnil c hmem
    rw [hc] at this
    exact Bool.false_ne_true this
  have hlen : (((c :: r).reverse.dropWhile Char.isWhitespace).reverse).length ≠ 0 := by
    simp only [List.length_reverse, ne_eq, List.length_eq_zero]
    exact hne
  simp only [jsTrim, hs, hdrop, String.length]
  simp only [beq_eq_false_iff_ne, ne_eq]
  exact hlen

lemma lookupWS_setWS_same (d : List ChoiceEntry) (n org t : String) :
    lookupWS (setWS d n org t) n = some (org, t) := by
  simp [lookupWS, setWS, List.find?]

lemma find?_filter_ne (d : List ChoiceEntry) (n m : String) (h : m ≠ n) :
    (d.filter (fun e => !(e.folder == n))).find? (fun e => e.folder == m)
      = d.find? (fun e => e.folder == m) := by
  induction d with
  | nil => rfl
  | cons e es ih =>
    by_cases hn : e.folder = n
    · have h1 : (e.folder == n) = true := by simp [hn]
      have h2 : (e.folder == m) = false := by
        simp only [beq_eq_false_iff_ne, ne_eq, hn]
        exact fun hm => h hm.symm
      simp [List.filter_cons, List.find?, h1, h2, ih]
    · have h1 : (e.folder == n) = false := by simp [hn]
      by_cases hm : e.folder = m
      · have h2 : (e.folder == m) = true := by simp [hm]
        simp [List.filter_cons, List.find?, h1, h2]
      · have h2 : (e.folder == m) = false := by simp [hm]
        simp [List.filter_cons, List.find?, h1, h2, ih]

lemma lookupWS_setWS_ne (d : List ChoiceEntry) (n org t m : String) (h : m ≠ n) :
    lookupWS (setWS d n org t) m = lookupWS d m := by
  have hnm : (n == m) = false := by
    simp only [beq_eq_false_iff_ne, ne_eq]
    exact fun hx => h hx.symm
  simp only [lookupWS, setWS, List.find?, hnm]
  rw [find?_filter_ne d n m h]

lemma lookupFile_setFile_same (fs : List (String × String)) (p c : String) :
    lookupFile (setFile fs p c) p = some c := by
  simp [lookupFile, setFile, List.find?]

lemma findSessionWithOrg_fst (org : String) (ss : List AzureSession) (st : St) :
    (findSessionWithOrg org ss st).1 = specSessionMatcher org ss := by
  induction ss generalizing st with
  | nil => rfl
  | cons s rest ih =>
    simp only [findSessionWithOrg, specSessionMatcher, List.find?]
    by_cases hm : (s.organizations.any (fun o => jsToLower o == jsToLower org)) = true
    · simp [hm]
    · have hm' : (s.organizations.any (fun o => jsToLower o == jsToLower org)) = false :=
        Bool.eq_false_iff.mpr hm
      simp only [hm', Bool.false_eq_true, if_false]
      exact ih _

lemma findSessionWithOrg_snd (org : String) (ss : List AzureSession) (st : St) :
    (findSessionWithOrg org ss st).2.seenOrganizations = st.seenOrganizations
      ∧ (findSessionWithOrg org ss st).2.tokenCalls = st.tokenCalls
      ∧ (findSessionWithOrg org ss st).2.schemaFetchCalls = st.schemaFetchCalls
      ∧ (findSessionWithOrg org ss st).2.infoMessages = st.infoMessages
      ∧ (findSessionWithOrg org ss st).2.errorMessages = st.errorMessages
      ∧ (findSessionWithOrg org ss st).2.workspaceState = st.workspaceState
      ∧ (findSessionWithOrg org ss st).2.files = st.files
      ∧ (findSessionWithOrg org ss st).2.notifierFired = st.notifierFired := by
  induction ss generalizing st with
  | nil => exact ⟨rfl, rfl, rfl, rfl, rfl, rfl, rfl, rfl⟩
  | cons s rest ih =>
    simp only [findSessionWithOrg]
    by_cases hm : (s.organizations.any (fun o => jsToLower o == jsToLower org)) = true
    · simp [hm]
    · have hm' : (s.organizations.any (fun o => jsToLower o == jsToLower org)) = false :=
        Bool.eq_false_iff.mpr hm
      simp only [hm', Bool.false_eq_true, if_false]
      exact ih _

lemma fetch_cached (env : Env) (ctx : ExtensionContext) (org : String)
    (s : AzureSession) (st : St) (h : st.seenOrganizations.contains org = true) :
    fetchAndCacheSchema env ctx org s st = (Except.ok (schemaUriFor ctx org), st) := by
  unfold fetchAndCacheSchema
  rw [h]
  simp

lemma fetch_success (env : Env) (ctx : ExtensionContext) (org : String)
    (s : AzureSession) (st : St)
    (hseen : st.seenOrganizations.contains org = false)
    (h1 : env.tokenOk = true) (h2 : env.schemaFetchOk = true) (h3 : env.writeOk = true) :
    fetchAndCacheSchema env ctx org s st
      = (Except.ok (schemaUriFor ctx org),
          { st with
            tokenCalls := st.tokenCalls + 1
            schemaFetchCalls := st.schemaFetchCalls + 1
            files := setFile st.files (schemaUriFor ctx org).path env.schemaContent
            seenOrganizations := insertOrg st.seenOrganizations org }) := by
  unfold fetchAndCacheSchema
  rw [hseen, h1, h2, h3]
  simp

lemma fetch_infoMessages (env : Env) (ctx : ExtensionContext) (org : String)
    (s : AzureSession) (st : St) :
    (fetchAndCacheSchema env ctx org s st).2.infoMessages = st.infoMessages := by
  unfold fetchAndCacheSchema
  cases hseen : st.seenOrganizations.contains org
  · cases h1 : env.tokenOk
    · simp
    · cases h2 : env.schemaFetchOk
      · simp
      · cases h3 : env.writeOk
        · simp
        · simp
  · simp

lemma finishDetection_some (env : Env) (ctx : ExtensionContext) (wf : WorkspaceFolder)
    (org : String) (s : AzureSession) (st : St) :
    (finishDetection env ctx wf org (some s) st).1
        = (match (fetchAndCacheSchema env ctx org s st).1 with
           | Except.ok u => Except.ok (some u)
           | Except.error e => Except.error e)
      ∧ (finishDetection env ctx wf org (some s) st).2
          = (fetchAndCacheSchema env ctx org s st).2 := by
  cases hf : fetchAndCacheSchema env ctx org s st with
  | mk r st' =>
    cases r with
    | ok u => exact ⟨by simp [finishDetection, hf], by simp [finishDetection, hf]⟩
    | error e => exact ⟨by simp [finishDetection, hf], by simp [finishDetection, hf]⟩

lemma pathIsAbsolute_data (s : String) (h : pathIsAbsolute s = true) :
    ∃ r, s.data = '/' :: r := by
  unfold pathIsAbsolute at h
  cases hs : s.data with
  | nil => rw [hs] at h; exact absurd h (by simp)
  | cons c cs =>
    rw [hs] at h
    refine ⟨cs, ?_⟩
    have : c = '/' := by
      simpa using h
    rw [this]

lemma pathJoin_abs_data (a b : String) (ra : List Char) (ha : a.data = '/' :: ra)
    (hb : b ≠ "") : ∃ r, (pathJoin a b).data = '/' :: r := by
  have hane : a ≠ "" := by
    intro h0
    rw [h0] at ha
    exact List.noConfusion ha
  unfold pathJoin
  rw [if_neg hane, if_neg hb]
  refine ⟨ra ++ "/".data ++ b.data, ?_⟩
  simp [String.data_append, ha]

lemma listStarts_cons_false (p : Char) (ps : List Char) (c : Char) (cs : List Char)
    (h : (p == c) = false) : listStarts (p :: ps) (c :: cs) = false := by
  simp [listStarts, h]

lemma strStarts_http_false_of_slash (s : String) (r : List Char) (h : s.data = '/' :: r) :
    (strStarts "http://" (jsToLower s) || strStarts "https://" (jsToLower s)) = false := by
  have hlow : (jsToLower s).data = '/' :: r.map Char.toLower := by
    simp only [jsToLower, h, List.map_cons]
    rfl
  have e1 : strStarts "http://" (jsToLower s) = false := by
    unfold strStarts
    rw [hlow, show "http://".data = 'h' :: "ttp://".data from rfl]
    exact listStarts_cons_false _ _ _ _ (by decide)
  have e2 : strStarts "https://" (jsToLower s) = false := by
    unfold strStarts
    rw [hlow, show "https://".data = 'h' :: "ttps://".data from rfl]
    exact listStarts_cons_false _ _ _ _ (by decide)
  rw [e1, e2]
  rfl

/-! ## Claim theorems -/

/-- C1 (code bug): for every configuration, context and state, calling the
resolution entry point with `workspace` undefined does skip auto-detection
(the state is untouched), but it does not return the static fallback: the
hardcoded-schema log statement evaluates `workspaceFolder.name` on
`undefined`, so the call always throws a `TypeError` instead of returning. -/
theorem locateSchemaFile_undefined_workspace_throws
    (env : Env) (ctx : ExtensionContext) (st : St) :
    locateSchemaFile env ctx none st = (Except.error typeErrorUndefinedName, st) := rfl

/-- C5: the session matcher returns the first session, in provider-supplied
order, whose accessible-organizations list contains the identity under
case-insensitive exact name comparison, and no session when no list
contains it — stated against the spec-side `find?` characterization
`specSessionMatcher`. -/
theorem findSessionWithOrg_eq_specMatcher (org : String) (ss : List AzureSession)
    (st : St) :
    (findSessionWithOrg org ss st).1 = specSessionMatcher org ss :=
  findSessionWithOrg_fst org ss st

/-- C7: if the user declines the initial prompt or cancels the organization
quick pick, the persisted choice mapping is unchanged and the association
notifier does not fire. -/
theorem promptDeclineCancel_noEffect (env : Env) (wf : WorkspaceFolder)
    (details : List ChoiceEntry) (st : St) :
    organizationPromptContinuation env wf details PromptAction.decline st = st
      ∧ (organizationPromptContinuation env wf details PromptAction.cancelPick st).workspaceState
          = st.workspaceState
      ∧ (organizationPromptContinuation env wf details PromptAction.cancelPick st).notifierFired
          = st.notifierFired :=
  ⟨rfl, rfl, rfl⟩

/-- C8 (frame): persisting a selected (identity, tenant) pair for a
workspace leaves every other workspace's persisted entry unchanged (the
update merges into the existing mapping), sets this workspace's entry to
the selection, and fires the notifier. -/
theorem promptSelection_merges_and_fires (env : Env) (wf : WorkspaceFolder)
    (st : St) (i : Nat) (org : String) (s : AzureSession)
    (hitem : (organizationsQuickPickItems env).get? i = some (org, s)) :
    (∀ w' : String, w' ≠ wf.name →
        lookupWS (organizationPromptContinuation env wf st.workspaceState
            (PromptAction.select i) st).workspaceState w'
          = lookupWS st.workspaceState w')
      ∧ lookupWS (organizationPromptContinuation env wf st.workspaceState
            (PromptAction.select i) st).workspaceState wf.name = some (org, s.tenantId)
      ∧ (organizationPromptContinuation env wf st.workspaceState
            (PromptAction.select i) st).notifierFired = true := by
  simp only [organizationPromptContinuation, hitem]
  exact ⟨fun w' hw => lookupWS_setWS_ne _ _ _ _ _ hw,
    lookupWS_setWS_same _ _ _ _, trivial⟩

/-- C8 witness: a concrete selection for workspace `repo-b` leaves the
persisted entry of `repo-a` unchanged, records the selection for `repo-b`,
and fires the notifier. -/
theorem promptSelection_merges_and_fires_witness :
    lookupWS (organizationPromptContinuation envPersisted wfOther
        stPersistedSeen.workspaceState (PromptAction.select 0)
        stPersistedSeen).workspaceState "repo-a"
      = lookupWS stPersistedSeen.workspaceState "repo-a"
    ∧ lookupWS (organizationPromptContinuation envPersisted wfOther
        stPersistedSeen.workspaceState (PromptAction.select 0)
        stPersistedSeen).workspaceState "repo-b" = some ("Contoso", "t1")
    ∧ (organizationPromptContinuation envPersisted wfOther
        stPersistedSeen.workspaceState (PromptAction.select 0)
        stPersistedSeen).notifierFired = true := by
  have h := promptSelection_merges_and_fires envPersisted wfOther stPersistedSeen 0
    "Contoso" sessT rfl
  exact ⟨h.1 "repo-a" (by decide), h.2.1, h.2.2⟩

/-- C9: an identity enters the session cache only after the fetched schema
was written: if token retrieval, the schema fetch or the file write fails,
the call raises and both the session cache and the written files are
unchanged, so a later resolution retries the fetch; on success the schema
document is written to the deterministic location and the identity is
added to the cache. -/
theorem fetch_failure_leaves_cache (env : Env) (ctx : ExtensionContext)
    (org : String) (s : AzureSession) (st : St)
    (hnew : st.seenOrganizations.contains org = false) :
    ((env.tokenOk = false ∨ env.schemaFetchOk = false ∨ env.writeOk = false) →
        (∃ e, (fetchAndCacheSchema env ctx org s st).1 = Except.error e)
          ∧ (fetchAndCacheSchema env ctx org s st).2.seenOrganizations
              = st.seenOrganizations
          ∧ (fetchAndCacheSchema env ctx org s st).2.files = st.files)
      ∧ (env.tokenOk = true → env.schemaFetchOk = true → env.writeOk = true →
          (fetchAndCacheSchema env ctx org s st).1 = Except.ok (schemaUriFor ctx org)
            ∧ (fetchAndCacheSchema env ctx org s st).2.seenOrganizations
                = insertOrg st.seenOrganizations org
            ∧ lookupFile (fetchAndCacheSchema env ctx org s st).2.files
                (schemaUriFor ctx org).path = some env.schemaContent) := by
  constructor
  · intro hfail
    unfold fetchAndCacheSchema
    rw [hnew]
    cases h1 : env.tokenOk
    · exact ⟨⟨"getToken failed", by simp⟩, by simp, by simp⟩
    · cases h2 : env.schemaFetchOk
      · exact ⟨⟨"getYamlSchema failed", by simp⟩, by simp, by simp⟩
      · cases h3 : env.writeOk
        · exact ⟨⟨"writeFile failed", by simp⟩, by simp, by simp⟩
        · rcases hfail with h | h | h
          · exact absurd h (by simp [h1])
          · exact absurd h (by simp [h2])
          · exact absurd h (by simp [h3])
  · intro h1 h2 h3
    rw [fetch_success env ctx org s st hnew h1 h2 h3]
    exact ⟨rfl, rfl, lookupFile_setFile_same _ _ _⟩

/-- C9 witness: a concrete failing fetch leaves the cache and files
untouched, and a concrete successful fetch writes and caches. -/
theorem fetch_failure_leaves_cache_witness :
    ((∃ e, (fetchAndCacheSchema { envPersisted with tokenOk := false } ctxT
        "contoso" sessT st0).1 = Except.error e)
      ∧ (fetchAndCacheSchema { envPersisted with tokenOk := false } ctxT
          "contoso" sessT st0).2.seenOrganizations = st0.seenOrganizations
      ∧ (fetchAndCacheSchema { envPersisted with tokenOk := false } ctxT
          "contoso" sessT st0).2.files = st0.files)
    ∧ ((fetchAndCacheSchema envPersisted ctxT "contoso" sessT st0).1
        = Except.ok (schemaUriFor ctxT "contoso")
      ∧ (fetchAndCacheSchema envPersisted ctxT "contoso" sessT st0).2.seenOrganizations
          = insertOrg st0.seenOrganizations "contoso"
      ∧ lookupFile (fetchAndCacheSchema envPersisted ctxT "contoso" sessT st0).2.files
          (schemaUriFor ctxT "contoso").path
          = some envPersisted.schemaContent) :=
  ⟨(fetch_failure_leaves_cache { envPersisted with tokenOk := false } ctxT
      "contoso" sessT st0 (by decide)).1 (Or.inl rfl),
   (fetch_failure_leaves_cache envPersisted ctxT "contoso" sessT st0 (by decide)).2
      rfl rfl rfl⟩

/-- C3 (code bug): when the persisted choice for the workspace names a
tenant that matches no authenticated session, resolution does not fall
through to prompting and does return the static fallback, but no
user-visible error message is surfaced: the cached-information log
statement dereferences `session.tenantId` on `undefined`, the resulting
`TypeError` is swallowed by the entry point's catch, and the explicit
`session === undefined` error branch is never reached — the final state
equals the initial state, with no error message appended. -/
theorem persistedChoice_noSession_silently_falls_back
    (env : Env) (ctx : ExtensionContext) (wf : WorkspaceFolder) (st : St)
    (org tenant : String)
    (h1 : env.loggedIn = true) (h2 : env.remoteUrl = none)
    (h3 : lookupWS st.workspaceState wf.name = some (org, tenant))
    (h4 : env.sessions.find? (fun s => s.tenantId == tenant) = none) :
    locateSchemaFile env ctx (some wf) st
      = (Except.ok (staticSchemaUri env ctx (some wf)).path, st) := by
  have hpers : detectFromPersistedChoice env ctx wf st
      = (Except.error typeErrorUndefinedTenantId, st) := by
    simp only [detectFromPersistedChoice, h3, h4]
  have hdetect : autoDetectSchema env ctx wf st
      = (Except.error typeErrorUndefinedTenantId, st) := by
    unfold autoDetectSchema
    rw [h1, h2]
    simpa using hpers
  simp only [locateSchemaFile, hdetect]

/-- C3 witness: the concrete revoked-access workspace falls back silently. -/
theorem persistedChoice_noSession_silently_falls_back_witness :
    locateSchemaFile envPersisted ctxT (some wfT) stRevoked
      = (Except.ok (staticSchemaUri envPersisted ctxT (some wfT)).path, stRevoked) :=
  persistedChoice_noSession_silently_falls_back envPersisted ctxT wfT stRevoked
    "contoso" "gone" rfl rfl rfl rfl

/-- C2 counterexample: with a recognized Azure remote URL, after a first
resolution fetched and cached the schema for `contoso` (squaring with the
claim's precondition), a second resolution of the same identity still
performs an organization-list network query during session matching — the
call counter rises from 1 to 2 — even though it returns the cached
location without token retrieval or schema fetch. This refutes the claim
that subsequent resolutions perform zero network calls. -/
theorem secondResolution_networkCall_counterexample :
    st1remote.seenOrganizations = ["contoso"]
      ∧ st1remote.orgListCalls = 1
      ∧ (autoDetectSchema envRemote ctxT wfT st1remote).1
          = Except.ok (some (schemaUriFor ctxT "contoso"))
      ∧ (autoDetectSchema envRemote ctxT wfT st1remote).2.orgListCalls = 2
      ∧ (autoDetectSchema envRemote ctxT wfT st1remote).2.tokenCalls
          = st1remote.tokenCalls
      ∧ (autoDetectSchema envRemote ctxT wfT st1remote).2.schemaFetchCalls
          = st1remote.schemaFetchCalls :=
  ⟨rfl, rfl, rfl, rfl, rfl, rfl⟩

/-- C2 (amended): once an identity is in the session cache, a subsequent
resolution returns the cached location and performs no token retrieval and
no schema fetch; on the persisted-choice path it performs no network calls
at all and leaves the state untouched, while on the remote-URL path the
session-matching organization-list queries still occur. -/
theorem cachedResolution_skips_fetch :
    (∀ (env : Env) (ctx : ExtensionContext) (wf : WorkspaceFolder) (st : St)
        (org tenant : String) (s : AzureSession),
      env.loggedIn = true →
      env.remoteUrl = none →
      lookupWS st.workspaceState wf.name = some (org, tenant) →
      env.sessions.find? (fun x => x.tenantId == tenant) = some s →
      st.seenOrganizations.contains org = true →
      autoDetectSchema env ctx wf st
        = (Except.ok (some (schemaUriFor ctx org)), st))
    ∧ (∀ (env : Env) (ctx : ExtensionContext) (wf : WorkspaceFolder) (st : St)
        (u : String),
      env.loggedIn = true →
      env.remoteUrl = some u →
      isAzureReposUrl u = true →
      ((findSessionWithOrg (getOrganizationFromRemoteUrl u) env.sessions st).1).isSome
          = true →
      st.seenOrganizations.contains (getOrganizationFromRemoteUrl u) = true →
      (autoDetectSchema env ctx wf st).1
          = Except.ok (some (schemaUriFor ctx (getOrganizationFromRemoteUrl u)))
        ∧ (autoDetectSchema env ctx wf st).2.tokenCalls = st.tokenCalls
        ∧ (autoDetectSchema env ctx wf st).2.schemaFetchCalls = st.schemaFetchCalls) := by
  constructor
  · intro env ctx wf st org tenant s hlog hrem hlook hfind hseen
    have hpers : detectFromPersistedChoice env ctx wf st
        = (Except.ok (some (schemaUriFor ctx org)), st) := by
      simp only [detectFromPersistedChoice, hlook, hfind]
      have hfd := finishDetection_some env ctx wf org s st
      have hfc := fetch_cached env ctx org s st hseen
      have h1 : (finishDetection env ctx wf org (some s) st).1
          = Except.ok (some (schemaUriFor ctx org)) := by
        rw [hfd.1, hfc]
      have h2 : (finishDetection env ctx wf org (some s) st).2 = st := by
        rw [hfd.2, hfc]
      calc finishDetection env ctx wf org (some s) st
          = ((finishDetection env ctx wf org (some s) st).1,
             (finishDetection env ctx wf org (some s) st).2) := rfl
        _ = (Except.ok (some (schemaUriFor ctx org)), st) := by rw [h1, h2]
    unfold autoDetectSchema
    rw [hlog, hrem]
    simpa using hpers
  · intro env ctx wf st u hlog hrem hazure hfound hseen
    obtain ⟨s, hs⟩ := Option.isSome_iff_exists.mp hfound
    have hsnd := findSessionWithOrg_snd (getOrganizationFromRemoteUrl u) env.sessions st
    have hdet : autoDetectSchema env ctx wf st
        = detectFromAzureRepo env ctx wf u st := by
      unfold autoDetectSchema
      rw [hlog, hrem]
      simp [hazure]
    have hseen2 : ((findSessionWithOrg (getOrganizationFromRemoteUrl u)
        env.sessions st).2).seenOrganizations.contains (getOrganizationFromRemoteUrl u)
        = true := by
      rw [hsnd.1]
      exact hseen
    have hfd := finishDetection_some env ctx wf (getOrganizationFromRemoteUrl u) s
      ((findSessionWithOrg (getOrganizationFromRemoteUrl u) env.sessions st).2)
    have hfc := fetch_cached env ctx (getOrganizationFromRemoteUrl u) s
      ((findSessionWithOrg (getOrganizationFromRemoteUrl u) env.sessions st).2) hseen2
    have hrepo : detectFromAzureRepo env ctx wf u st
        = finishDetection env ctx wf (getOrganizationFromRemoteUrl u) (some s)
            ((findSessionWithOrg (getOrganizationFromRemoteUrl u) env.sessions st).2) := by
      simp only [detectFromAzureRepo]
      rw [hs]
    rw [hdet, hrepo]
    refine ⟨?_, ?_, ?_⟩
    · rw [hfd.1, hfc]
    · rw [hfd.2, hfc, hsnd.2.1]
    · rw [hfd.2, hfc, hsnd.2.2.1]

/-- C2 amended witness: a concrete cached persisted-choice resolution is a
pure cache hit, and a concrete cached remote-URL resolution keeps the
token and schema-fetch counters unchanged. -/
theorem cachedResolution_skips_fetch_witness :
    autoDetectSchema envPersisted ctxT wfT stPersistedSeen
        = (Except.ok (some (schemaUriFor ctxT "contoso")), stPersistedSeen)
      ∧ (autoDetectSchema envRemote ctxT wfT st1remote).2.tokenCalls
          = st1remote.tokenCalls :=
  ⟨cachedResolution_skips_fetch.1 envPersisted ctxT wfT stPersistedSeen
      "contoso" "t1" sessT rfl rfl rfl rfl rfl,
   (cachedResolution_skips_fetch.2 envRemote ctxT wfT st1remote
      "https://dev.azure.com/contoso/proj/_git/repo" rfl rfl rfl rfl rfl).2.1⟩

lemma autoDetect_notAzure (env : Env) (ctx : ExtensionContext) (wf : WorkspaceFolder)
    (st : St) (hlog : env.loggedIn = true) (hrem : env.remoteUrl = none) :
    autoDetectSchema env ctx wf st = detectFromPersistedChoice env ctx wf st := by
  unfold autoDetectSchema
  rw [hlog, hrem]
  simp

lemma detectFromPersistedChoice_found (env : Env) (ctx : ExtensionContext)
    (wf : WorkspaceFolder) (st : St) (org tenant : String) (s₂ : AzureSession)
    (hlook : lookupWS st.workspaceState wf.name = some (org, tenant))
    (hfind : env.sessions.find? (fun x => x.tenantId == tenant) = some s₂) :
    detectFromPersistedChoice env ctx wf st = finishDetection env ctx wf org (some s₂) st := by
  simp only [detectFromPersistedChoice, hlook, hfind]

lemma finishDetection_ok_info (env : Env) (ctx : ExtensionContext) (wf : WorkspaceFolder)
    (org : String) (s₂ : AzureSession) (st : St)
    (htok : env.tokenOk = true) (hfetch : env.schemaFetchOk = true)
    (hwrite : env.writeOk = true) :
    (finishDetection env ctx wf org (some s₂) st).1 = Except.ok (some (schemaUriFor ctx org))
      ∧ (finishDetection env ctx wf org (some s₂) st).2.infoMessages = st.infoMessages := by
  have hfd := finishDetection_some env ctx wf org s₂ st
  cases hseen : st.seenOrganizations.contains org
  · have hfc := fetch_success env ctx org s₂ st hseen htok hfetch hwrite
    constructor
    · rw [hfd.1, hfc]
    · rw [hfd.2, hfc]
  · have hfc := fetch_cached env ctx org s₂ st hseen
    constructor
    · rw [hfd.1, hfc]
    · rw [hfd.2, hfc]

/-- C4 counterexample: with the relative configured value `custom/rel.json`
and no workspace, the static computation yields the installation-bundled
default location, not the configured value resolved against the
installation root as the claim states. -/
theorem relativeConfig_noWorkspace_counterexample :
    (staticSchemaUri envRelative ctxT none).path = "/ext/service-schema.json"
      ∧ (staticSchemaUri envRelative ctxT none).path
          ≠ (Uri.file (pathJoin ctxT.extensionPath envRelative.customSchemaFile)).path :=
  ⟨rfl, by decide⟩

/-- C4 (amended): the configured custom-schema value is interpreted in
order — empty after trimming: the installation-bundled default; an
`http(s)` scheme: parsed as an absolute URL; filesystem-absolute: used as
an absolute file path; otherwise resolved relative to the workspace root;
when no workspace is given, the relative configured value is ignored and
the installation-bundled default location is used instead. -/
theorem staticSchemaUri_resolution_order
    (env : Env) (ctx : ExtensionContext) (wf : Option WorkspaceFolder)
    (habs : pathIsAbsolute ctx.extensionPath = true) :
    (((jsTrim env.customSchemaFile).length == 0) = true →
        staticSchemaUri env ctx wf
          = Uri.file (pathJoin ctx.extensionPath "service-schema.json"))
    ∧ (((jsTrim env.customSchemaFile).length == 0) = false →
        (strStarts "http://" (jsToLower env.customSchemaFile)
          || strStarts "https://" (jsToLower env.customSchemaFile)) = true →
        staticSchemaUri env ctx wf = Uri.parse env.customSchemaFile)
    ∧ (((jsTrim env.customSchemaFile).length == 0) = false →
        (strStarts "http://" (jsToLower env.customSchemaFile)
          || strStarts "https://" (jsToLower env.customSchemaFile)) = false →
        pathIsAbsolute env.customSchemaFile = true →
        staticSchemaUri env ctx wf = Uri.file env.customSchemaFile)
    ∧ (∀ w : WorkspaceFolder, wf = some w →
        ((jsTrim env.customSchemaFile).length == 0) = false →
        (strStarts "http://" (jsToLower env.customSchemaFile)
          || strStarts "https://" (jsToLower env.customSchemaFile)) = false →
        pathIsAbsolute env.customSchemaFile = false →
        staticSchemaUri env ctx wf = Uri.file (pathJoin w.fsPath env.customSchemaFile))
    ∧ (wf = none →
        ((jsTrim env.customSchemaFile).length == 0) = false →
        (strStarts "http://" (jsToLower env.customSchemaFile)
          || strStarts "https://" (jsToLower env.customSchemaFile)) = false →
        pathIsAbsolute env.customSchemaFile = false →
        staticSchemaUri env ctx wf
          = Uri.file (pathJoin ctx.extensionPath "service-schema.json")) := by
  obtain ⟨re, hre⟩ := pathIsAbsolute_data ctx.extensionPath habs
  obtain ⟨rj, hrj⟩ :=
    pathJoin_abs_data ctx.extensionPath "service-schema.json" re hre (by decide)
  have hjhttp := strStarts_http_false_of_slash _ _ hrj
  have hjabs : pathIsAbsolute (pathJoin ctx.extensionPath "service-schema.json") = true := by
    unfold pathIsAbsolute
    rw [hrj]
    simp
  refine ⟨?_, ?_, ?_, ?_, ?_⟩
  · intro hemp
    have halt : staticAlternate env ctx = pathJoin ctx.extensionPath "service-schema.json" := by
      unfold staticAlternate
      rw [hemp]
      simp
    unfold staticSchemaUri
    rw [halt, hjhttp, hjabs]
    simp
  · intro hemp hhttp
    have halt : staticAlternate env ctx = env.customSchemaFile := by
      unfold staticAlternate
      rw [hemp]
      simp
    unfold staticSchemaUri
    rw [halt, hhttp]
    simp
  · intro hemp hhttp hab
    have halt : staticAlternate env ctx = env.customSchemaFile := by
      unfold staticAlternate
      rw [hemp]
      simp
    unfold staticSchemaUri
    rw [halt, hhttp, hab]
    simp
  · intro w hw hemp hhttp hab
    subst hw
    have halt : staticAlternate env ctx = env.customSchemaFile := by
      unfold staticAlternate
      rw [hemp]
      simp
    unfold staticSchemaUri
    rw [halt, hhttp, hab]
    simp
  · intro hw hemp hhttp hab
    subst hw
    have halt : staticAlternate env ctx = env.customSchemaFile := by
      unfold staticAlternate
      rw [hemp]
      simp
    unfold staticSchemaUri
    rw [halt, hhttp, hab]
    simp

/-- C4 amended witness: the empty configuration yields the bundled default,
and a concrete relative configuration with a workspace resolves against the
workspace root. -/
theorem staticSchemaUri_resolution_order_witness :
    staticSchemaUri envPersisted ctxT (some wfT)
        = Uri.file (pathJoin ctxT.extensionPath "service-schema.json")
      ∧ staticSchemaUri envRelative ctxT (some wfT)
          = Uri.file (pathJoin wfT.fsPath envRelative.customSchemaFile) :=
  ⟨(staticSchemaUri_resolution_order envPersisted ctxT (some wfT) (by decide)).1 (by decide),
   (staticSchemaUri_resolution_order envRelative ctxT (some wfT) (by decide)).2.2.2.1 wfT
      rfl (by decide) (by decide) (by decide)⟩

/-- C6 (round-trip): after the disambiguator persists the selected
(identity, tenant) pair for a workspace, re-resolving that workspace with
no recognized remote URL, while a session with the persisted tenant
identifier exists and the fetch path is healthy, yields the schema
location of that same identity and shows no further prompt (the info
message log is unchanged). -/
theorem persistedChoice_roundTrip
    (env : Env) (ctx : ExtensionContext) (wf : WorkspaceFolder)
    (details : List ChoiceEntry) (st : St) (i : Nat)
    (org : String) (s s₂ : AzureSession)
    (hitem : (organizationsQuickPickItems env).get? i = some (org, s))
    (hfind : env.sessions.find? (fun x => x.tenantId == s.tenantId) = some s₂)
    (hlog : env.loggedIn = true) (hrem : env.remoteUrl = none)
    (htok : env.tokenOk = true) (hfetch : env.schemaFetchOk = true)
    (hwrite : env.writeOk = true) :
    (autoDetectSchema env ctx wf
        (organizationPromptContinuation env wf details (PromptAction.select i) st)).1
        = Except.ok (some (schemaUriFor ctx org))
      ∧ (autoDetectSchema env ctx wf
          (organizationPromptContinuation env wf details (PromptAction.select i) st)).2.infoMessages
          = st.infoMessages := by
  have hcont : organizationPromptContinuation env wf details (PromptAction.select i) st
      = { st with
          orgListCalls := st.orgListCalls + env.sessions.length
          workspaceState := setWS details wf.name org s.tenantId
          notifierFired := true } := by
    simp only [organizationPromptContinuation, hitem]
  rw [hcont]
  rw [autoDetect_notAzure env ctx wf _ hlog hrem]
  rw [detectFromPersistedChoice_found env ctx wf _ org s.tenantId s₂
    (lookupWS_setWS_same details wf.name org s.tenantId) hfind]
  exact finishDetection_ok_info env ctx wf org s₂ _ htok hfetch hwrite

/-- C6 witness: a concrete selection for `repo-a` followed by a resolution
of `repo-a` with no remote yields the selected organization's schema
location without any prompt. -/
theorem persistedChoice_roundTrip_witness :
    (autoDetectSchema envPersisted ctxT wfT
        (organizationPromptContinuation envPersisted wfT [] (PromptAction.select 0) st0)).1
        = Except.ok (some (schemaUriFor ctxT "Contoso"))
      ∧ (autoDetectSchema envPersisted ctxT wfT
          (organizationPromptContinuation envPersisted wfT [] (PromptAction.select 0) st0)).2.infoMessages
          = st0.infoMessages :=
  persistedChoice_roundTrip envPersisted ctxT wfT [] st0 0 "Contoso" sessT sessT
    rfl rfl rfl rfl rfl rfl rfl

/-- C10: the resolution entry point returns only the path component of the
computed URI: for a configured custom schema value `https://host/p/q`
(with no slash in the host), the returned location is `/p/q`, with the
scheme and host authority dropped. -/
theorem locateSchemaFile_returns_path_component
    (env : Env) (ctx : ExtensionContext) (w : WorkspaceFolder) (st : St)
    (host pq : String)
    (hslash : '/' ∉ host.data)
    (hcfg : env.customSchemaFile = "https://" ++ host ++ "/" ++ pq)
    (hlog : env.loggedIn = false) :
    (locateSchemaFile env ctx (some w) st).1 = Except.ok ("/" ++ pq) := by
  have hl : env.customSchemaFile.data
      = ['h','t','t','p','s'] ++ ':' :: ('/' :: '/' :: (host.data ++ '/' :: pq.data)) := by
    rw [hcfg]
    simp [String.data_append, List.append_assoc]
  have hl2 : env.customSchemaFile.data = "https://".data ++ (host.data ++ '/' :: pq.data) := by
    rw [hl]
    rfl
  have htrim : ((jsTrim env.customSchemaFile).length == 0) = false :=
    jsTrim_length_ne_zero env.customSchemaFile 'h'
      (['t','t','p','s'] ++ ':' :: ('/' :: '/' :: (host.data ++ '/' :: pq.data)))
      (by rw [hl]; rfl) (by decide)
  have hlow : (jsToLower env.customSchemaFile).data
      = "https://".data ++ ((host.data ++ '/' :: pq.data).map Char.toLower) := by
    show env.customSchemaFile.data.map Char.toLower = _
    rw [hl2, List.map_append]
    congr 1
  have hstarts : strStarts "https://" (jsToLower env.customSchemaFile) = true := by
    unfold strStarts
    rw [hlow]
    exact listStarts_self_append _ _
  have halt : staticAlternate env ctx = env.customSchemaFile := by
    unfold staticAlternate
    rw [htrim]
    simp
  have hcond : (strStarts "http://" (jsToLower (staticAlternate env ctx))
      || strStarts "https://" (jsToLower (staticAlternate env ctx))) = true := by
    rw [halt, hstarts, Bool.or_true]
  have h2 := splitAtChar_append_of_not_mem '/' host.data pq.data hslash
  have hparse : Uri.parse env.customSchemaFile
      = { scheme := ⟨['h','t','t','p','s']⟩, authority := ⟨host.data⟩,
          path := ⟨'/' :: pq.data⟩ } := by
    have e : splitAtChar ':' env.customSchemaFile.data
        = (['h','t','t','p','s'], ':' :: ('/' :: '/' :: (host.data ++ '/' :: pq.data))) := by
      rw [hl]
      exact splitAtChar_append_of_not_mem ':' ['h','t','t','p','s']
        ('/' :: '/' :: (host.data ++ '/' :: pq.data)) (by decide)
    simp only [Uri.parse, e]
    simp [h2]
  have hstat : staticSchemaUri env ctx (some w)
      = { scheme := ⟨['h','t','t','p','s']⟩, authority := ⟨host.data⟩,
          path := ⟨'/' :: pq.data⟩ } := by
    unfold staticSchemaUri
    rw [hcond, halt]
    simp [hparse]
  have hdetect : autoDetectSchema env ctx w st
      = (Except.ok none, { st with infoMessages := st.infoMessages ++ [signInMessage] }) := by
    unfold autoDetectSchema
    rw [hlog]
    simp
  have hstr : ("/" ++ pq) = (⟨'/' :: pq.data⟩ : String) := by
    apply String.ext
    rw [String.data_append, show "/".data = ['/'] from rfl]
    rfl
  simp only [locateSchemaFile, hdetect, hstat, hstr]

/-- C10 witness: a concrete https configuration yields just the path. -/
theorem locateSchemaFile_returns_path_component_witness :
    (locateSchemaFile envHttp ctxT (some wfT) st0).1 = Except.ok ("/" ++ "p/q.json") :=
  locateSchemaFile_returns_path_component envHttp ctxT wfT st0 "contoso.example" "p/q.json"
    (by decide) (by decide) rfl

end SchemaAssoc
